import Mathlib

/-!
Verification development for the pxp static-analysis toolchain.

The Rust sources are shallowly embedded: byte strings become `List Char`,
hash maps become association lists (insert prepends, lookup takes the first
match, matching `HashMap` insert/replace observationally), `Vec` becomes
`List`, panicking paths (`todo!()`, `unreachable!()`) become `Option`-valued
failures, and the `Rc<RefCell<_>>` wrapper produced by `Scope::enclose`
becomes a plain value: the Rust code clones the scope into the cell at
enclosure time, so value semantics is exact.

Parts of the repository that the claims depend on but whose sources are not
available (the generated AST/visitor walks, the `TypeMap` crate, the lexer
cursor and parser utilities) are modelled from the specification; their doc
comments say so explicitly.
-/

namespace Pxp

/-- Byte strings (`pxp_bytestring::ByteString` / `ByteStr`) are modelled as
lists of characters. -/
abbrev BS := List Char

/-- `ResolvedName` from the AST crate: the fully-qualified resolved form and
the original form as written. -/
structure ResolvedName where
  resolved : BS
  original : BS
deriving DecidableEq, Repr

/-- `pxp_type::ConstExpr`, restricted to the integer case the engine uses
(`ConstExpr::Integer(1)` for `print`). -/
inductive ConstExprV where
  | integer (n : Int)
deriving DecidableEq, Repr

/-- `pxp_type::Type<ResolvedName>` as used by the inference engine
(spec §3: `Mixed | Never | Void | Boolean | True | False | Integer | Float |
String | LiteralString | Object | Named | TypedArray | Union | ConstExpr |
Missing`). -/
inductive Ty where
  | mixed
  | never
  | void
  | boolean
  | trueT
  | falseT
  | integer
  | float
  | stringT
  | literalString (value : BS)
  | object
  | named (name : ResolvedName)
  | typedArray (key value : Ty)
  | union (types : List Ty)
  | constExpr (e : ConstExprV)
  | missing
deriving Repr

mutual

/-- Structural equality test for `Ty` (the Rust type derives `PartialEq`/
`Eq`/`Hash`; the engine compares types structurally in its `HashSet`). -/
def Ty.eqb : Ty → Ty → Bool
  | .mixed, .mixed => Bool.true
  | .never, .never => Bool.true
  | .void, .void => Bool.true
  | .boolean, .boolean => Bool.true
  | .trueT, .trueT => Bool.true
  | .falseT, .falseT => Bool.true
  | .integer, .integer => Bool.true
  | .float, .float => Bool.true
  | .stringT, .stringT => Bool.true
  | .literalString a, .literalString b => a = b
  | .object, .object => Bool.true
  | .named a, .named b => a = b
  | .typedArray k1 v1, .typedArray k2 v2 => Ty.eqb k1 k2 && Ty.eqb v1 v2
  | .union xs, .union ys => Ty.eqbList xs ys
  | .constExpr a, .constExpr b => a = b
  | .missing, .missing => Bool.true
  | _, _ => Bool.false

def Ty.eqbList : List Ty → List Ty → Bool
  | [], [] => Bool.true
  | x :: xs, y :: ys => Ty.eqb x y && Ty.eqbList xs ys
  | _, _ => Bool.false

end

set_option maxHeartbeats 3200000 in
theorem Ty.eqb_iff : ∀ (a b : Ty), (Ty.eqb a b = true ↔ a = b) := by
  intro a
  induction a using Ty.rec
    (motive_2 := fun as => ∀ bs, (Ty.eqbList as bs = true ↔ as = bs)) with
  | mixed => intro b; cases b <;> simp [Ty.eqb]
  | never => intro b; cases b <;> simp [Ty.eqb]
  | void => intro b; cases b <;> simp [Ty.eqb]
  | boolean => intro b; cases b <;> simp [Ty.eqb]
  | trueT => intro b; cases b <;> simp [Ty.eqb]
  | falseT => intro b; cases b <;> simp [Ty.eqb]
  | integer => intro b; cases b <;> simp [Ty.eqb]
  | float => intro b; cases b <;> simp [Ty.eqb]
  | stringT => intro b; cases b <;> simp [Ty.eqb]
  | literalString v => intro b; cases b <;> simp [Ty.eqb]
  | object => intro b; cases b <;> simp [Ty.eqb]
  | named n => intro b; cases b <;> simp [Ty.eqb]
  | typedArray k v ihk ihv => intro b; cases b <;> simp [Ty.eqb, ihk, ihv]
  | union ts ih => intro b; cases b <;> simp [Ty.eqb, ih]
  | constExpr e => intro b; cases b <;> simp [Ty.eqb]
  | missing => intro b; cases b <;> simp [Ty.eqb]
  | nil => rename_i bs; cases bs <;> simp [Ty.eqbList]
  | cons x xs ihx ihxs => rename_i bs; cases bs <;> simp [Ty.eqbList, ihx, ihxs]

instance : DecidableEq Ty := fun a b => decidable_of_iff _ (Ty.eqb_iff a b)

instance : BEq Ty := ⟨Ty.eqb⟩

instance : LawfulBEq Ty where
  eq_of_beq h := (Ty.eqb_iff _ _).mp h
  rfl := (Ty.eqb_iff _ _).mpr rfl

/-! ## The symbol index (external collaborator, spec §6 contract)

`get_function(name) → Option<{get_return_type() → Option<&Type>}>` and
`get_class(name) → Option<_>` (presence check only). -/

/-- A function reflection: only the declared return type is consumed by the
engine (`ReflectionFunctionLike::get_return_type`). -/
structure FunctionReflection where
  name : BS
  returnType : Option Ty

/-- The read-only symbol index consulted by the type engine. -/
structure Index where
  functions : List FunctionReflection
  classes : List BS

def Index.get_function (idx : Index) (name : BS) : Option FunctionReflection :=
  idx.functions.find? (fun f => f.name == name)

def Index.get_class (idx : Index) (name : BS) : Option BS :=
  idx.classes.find? (fun c => c == name)

/-! ## TypeMap -/

/-- Modelled from the spec: the `TypeMap` crate is not among the sources;
spec §6 gives its contract — `insert(id, Type)` and
`resolve(id) → &Type` which defaults to `Mixed` for unknown ids. -/
abbrev TypeMap := List (Nat × Ty)

def TypeMap.insert (m : TypeMap) (id : Nat) (ty : Ty) : TypeMap :=
  (id, ty) :: m

/-- `resolve` defaults to `Mixed` for ids with no entry. -/
def TypeMap.resolve (m : TypeMap) (id : Nat) : Ty :=
  match m.find? (fun p => p.1 == id) with
  | some p => p.2
  | none => Ty.mixed

/-- Whether the map holds an entry for `id` (as opposed to merely
defaulting to `Mixed` on `resolve`). -/
def TypeMap.containsKey (m : TypeMap) (id : Nat) : Bool :=
  m.any (fun p => p.1 == id)

/-! ## Scopes (engine.rs lines 54-122) -/

/-- `Scope` from `inference/src/engine.rs`: a variable map plus an optional
outer scope.  `Scope::enclose` stores `Rc::new(RefCell::new(self.clone()))`
in `outer` — a snapshot by clone — so the plain-value embedding is exact. -/
inductive Scope where
  | mk (varsMap : List (BS × Ty)) (outer : Option Scope)

def Scope.varsMap : Scope → List (BS × Ty)
  | .mk v _ => v

def Scope.outer : Scope → Option Scope
  | .mk _ o => o

def Scope.new : Scope := .mk [] none

/-- `Scope::enclose`: a fresh variable map whose `outer` is a clone of
`self` taken now. -/
def Scope.enclose (s : Scope) : Scope := .mk [] (some s)

/-- `Scope::set_variable`: insert/replace the binding in this scope's own
map (the prepend models `HashMap::insert`; lookups take the first hit). -/
def Scope.set_variable : Scope → BS → Ty → Scope
  | .mk vars outer, k, v => .mk ((k, v) :: vars) outer

/-- `Scope::get_variable`: the local map first, then the outer scope
transitively (the split on `outer` is for Lean's equation compiler; both
arms consult the local map first, as the source does). -/
def Scope.get_variable : Scope → BS → Option Ty
  | .mk vars none, k => (vars.find? (fun p => p.1 == k)).map Prod.snd
  | .mk vars (some o), k =>
    match vars.find? (fun p => p.1 == k) with
    | some p => some p.2
    | none => o.get_variable k

/-- `ScopeStack` (engine.rs lines 54-84).  The Lean list's head is the
Rust `Vec`'s last element, i.e. the current scope. -/
structure ScopeStack where
  scopes : List Scope

def ScopeStack.new : ScopeStack := ⟨[Scope.new]⟩

def ScopeStack.start (st : ScopeStack) : ScopeStack :=
  ⟨Scope.new :: st.scopes⟩

/-- `current` is `last().unwrap()`; the stack is non-empty by construction
(one root scope at creation, `end` paired with `start`). -/
def ScopeStack.current (st : ScopeStack) : Scope :=
  st.scopes.headD Scope.new

def ScopeStack.start_enclosed (st : ScopeStack) : ScopeStack :=
  ⟨st.current.enclose :: st.scopes⟩

def ScopeStack.endScope (st : ScopeStack) : ScopeStack :=
  ⟨st.scopes.tail⟩

/-- `current_mut().set_variable(..)` on the stack. -/
def ScopeStack.setCurrentVar (st : ScopeStack) (k : BS) (v : Ty) : ScopeStack :=
  match st.scopes with
  | [] => st
  | s :: rest => ⟨s.set_variable k v :: rest⟩

/-! ## AST fragment

The generated AST and visitor-walk sources are not in the repository
snapshot; node shapes are taken from their uses in `engine.rs`, and the
default descent order is modelled from spec §4.5/§6 ("single in-order walk",
"`visit_X` hooks for each kind and `walk_X` default descents").  The
fragment covers the node kinds the claims exercise. -/

structure SimpleVariable where
  id : Nat
  symbol : BS

inductive LiteralKind where
  | integer
  | float
  | stringL
  | missingL
deriving DecidableEq, Repr

/-- A literal together with its token's symbol (`node.token.symbol`). -/
structure Literal where
  id : Nat
  kind : LiteralKind
  symbol : BS

inductive SpecialNameKind where
  | selfK
  | parentK
  | staticK
deriving DecidableEq, Repr

inductive NameKind where
  | resolved (r : ResolvedName)
  | unresolved (original : BS)
  | special (k : SpecialNameKind)

structure NameNode where
  id : Nat
  kind : NameKind

def NameNode.is_resolved (n : NameNode) : Bool :=
  match n.kind with
  | .resolved _ => Bool.true
  | _ => Bool.false

mutual

/-- An `Expression` wrapper node: stable id plus kind. -/
inductive Expr where
  | mk (id : Nat) (kind : ExprKind)

inductive ExprKind where
  | varE (v : Var)
  | literal (l : Literal)
  | name (n : NameNode)
  | assignmentOperation (id : Nat) (left : Expr) (right : Expr)
  | newE (id : Nat) (target : Expr) (args : List Expr)
  | functionCall (id : Nat) (target : Expr) (args : List Expr)
  | parenthesized (id : Nat) (expr : Expr)
  | closure (id : Nat) (returnType : Option Ty)
  | missingE (id : Nat)

/-- A variable: simple (`$x`) or dynamic (`$$x` / `${expr}`, collapsed to
one constructor holding the inner expression). -/
inductive Var where
  | simple (s : SimpleVariable)
  | dynamic (id : Nat) (inner : Expr)

end

def Expr.id : Expr → Nat
  | .mk i _ => i

def Expr.kind : Expr → ExprKind
  | .mk _ k => k

/-- `ExpressionKind::id()`: the id of the inner kind node. -/
def ExprKind.kid : ExprKind → Nat
  | .varE (.simple s) => s.id
  | .varE (.dynamic i _) => i
  | .literal l => l.id
  | .name n => n.id
  | .assignmentOperation i _ _ => i
  | .newE i _ _ => i
  | .functionCall i _ _ => i
  | .parenthesized i _ => i
  | .closure i _ => i
  | .missingE i => i

/-- Statements, restricted to expression statements (the only statement
kind the claims exercise). -/
inductive Stmt where
  | exprStmt (id : Nat) (expr : Expr)

/-! ## Engine helpers (engine.rs lines 124-270) -/

/-- Modelled from the spec: `strip_string_quotes` lives in the byte-string
crate, which is out of scope; spec §4.5 says a string literal's type is
`LiteralString(content-without-quotes)`. -/
def stripStringQuotes (s : BS) : BS :=
  match s with
  | c :: _ :: _ =>
    if c = '"' ∨ c = '\'' then (s.drop 1).dropLast else s
  | _ => s

/-- `is_newable_string`: the index knows a class of that name. -/
def is_newable_string (idx : Index) (value : BS) : Bool :=
  (idx.get_class value).isSome

/-- `is_callable_string` (engine.rs 133-141): strips one byte from each end
of the symbol, then `todo!()` — a panic, modelled as `none` — if the
remainder contains `::`; otherwise asks the index for the function. -/
def is_callable_string (idx : Index) (name : BS) : Option Bool :=
  let inner := (name.drop 1).dropLast
  if ([':', ':'] : List Char) <:+: inner then
    none
  else
    some (idx.get_function inner).isSome

/-- `get_function_call_target_return_type_from_callable_string`
(engine.rs 171-189). -/
def return_type_from_callable_string (idx : Index) (name : BS) : Ty :=
  let inner := (name.drop 1).dropLast
  if ([':', ':'] : List Char) <:+: inner then
    Ty.mixed
  else
    match idx.get_function inner with
    | some f => f.returnType.getD Ty.mixed
    | none => Ty.mixed

/-- `get_function_call_target_return_type_from_name` (engine.rs 191-204):
resolved names are looked up in the index; every other name kind hits
`todo!()` — a panic, modelled as `none`. -/
def return_type_from_name (idx : Index) (n : NameNode) : Option Ty :=
  match n.kind with
  | .resolved r =>
    some (match idx.get_function r.resolved with
      | some f => f.returnType.getD Ty.mixed
      | none => Ty.mixed)
  | _ => none

/-- `determine_function_call_target_return_type` (engine.rs 143-169).
`none` models a panic reached through `todo!()`. -/
def determine_call_return_type (idx : Index) : Expr → Option Ty
  | .mk _ (.name n) => return_type_from_name idx n
  | .mk _ (.parenthesized _ inner) => determine_call_return_type idx inner
  | .mk _ (.closure _ rt) => some (rt.getD Ty.mixed)
  | .mk _ (.literal l) =>
    match l.kind with
    | .stringL => do
      let callable ← is_callable_string idx l.symbol
      if callable then
        pure (return_type_from_callable_string idx l.symbol)
      else
        pure Ty.mixed
    | _ => pure Ty.mixed
  | _ => pure Ty.mixed

/-- `simplify_union` (engine.rs 206-220): singleton lists collapse to their
element; otherwise deduplicate (keeping first occurrences, as the
`HashSet::insert`-based `retain` does) and collapse again if a single type
remains. -/
def dedupKeepFirst (seen : List Ty) : List Ty → List Ty
  | [] => []
  | t :: rest =>
    if t ∈ seen then dedupKeepFirst seen rest
    else t :: dedupKeepFirst (t :: seen) rest

def simplify_union (types : List Ty) : Ty :=
  match types with
  | [t] => t
  | _ =>
    match dedupKeepFirst [] types with
    | [t] => t
    | ts => Ty.union ts

/-- The type stored for a literal by `visit_literal` (engine.rs 282-298). -/
def literalTy (l : Literal) : Ty :=
  match l.kind with
  | .integer => Ty.integer
  | .float => Ty.float
  | .stringL => Ty.literalString (stripStringQuotes l.symbol)
  | .missingL => Ty.missing

/-- The type stored for a `new` expression by `visit_new_expression`
(engine.rs 355-376): a resolved name gives `Named`, any other name kind
gives `Mixed`; non-name targets whose inferred type is a `LiteralString`
naming an indexed class give `Named`, and everything else gives `Object`. -/
def newTargetType (m : TypeMap) (idx : Index) (target : Expr) : Ty :=
  match target.kind with
  | .name n =>
    match n.kind with
    | .resolved r => Ty.named r
    | _ => Ty.mixed
  | _ =>
    match m.resolve target.id with
    | .literalString v =>
      if is_newable_string idx v then Ty.named ⟨v, v⟩ else Ty.object
    | _ => Ty.object

/-! ## The visitor (engine.rs 273-453)

`visit_expression` walks the kind, then copies the kind's inferred type to
the wrapper id.  Overridden visits follow engine.rs; kinds with no
override descend into their children in order (default `walk_X`, modelled
from spec §6).  The `Option` layer threads the `todo!()` panics of the
call-target resolution. -/

structure Ctx where
  map : TypeMap
  scopes : ScopeStack

mutual

/-- `visit_expression` (engine.rs 274-280). -/
def visitExpr (idx : Index) (ctx : Ctx) : Expr → Option Ctx
  | .mk i k => do
    let c ← visitKind idx ctx k
    pure { c with map := c.map.insert i (c.map.resolve k.kid) }

/-- `walk_expression`: dispatch on the expression kind, running the
overridden visitor where engine.rs has one. -/
def visitKind (idx : Index) (ctx : Ctx) (k : ExprKind) : Option Ctx :=
  match k with
  | .varE (.simple sv) =>
    -- visit_simple_variable (engine.rs 328-332): insert only on a scope hit.
    pure (match ctx.scopes.current.get_variable sv.symbol with
      | some ty => { ctx with map := ctx.map.insert sv.id ty }
      | none => ctx)
  | .varE (.dynamic _ inner) => visitExpr idx ctx inner
  | .literal l =>
    pure { ctx with map := ctx.map.insert l.id (literalTy l) }
  | .name _ => pure ctx
  | .assignmentOperation i left (.mk _ rkind) => do
    -- visit_assignment_operation_expression (engine.rs 334-353):
    -- walk only the right-hand side (walk_expression(&node.right)),
    -- here destructured into its kind node.
    let c1 ← visitKind idx ctx rkind
    let c2 := { c1 with map := c1.map.insert i (c1.map.resolve rkind.kid) }
    match left.kind with
    | .varE (.simple sv) =>
      let resolved := c2.map.resolve rkind.kid
      pure { map := c2.map.insert sv.id resolved,
             scopes := c2.scopes.setCurrentVar sv.symbol resolved }
    | _ => pure c2
  | .newE i target args => do
    let c1 ← visitExpr idx ctx target
    let c2 ← visitArgs idx c1 args
    pure { c2 with map := c2.map.insert i (newTargetType c2.map idx target) }
  | .functionCall i target args => do
    let c1 ← visitExpr idx ctx target
    let c2 ← visitArgs idx c1 args
    let rt ← determine_call_return_type idx target
    pure { c2 with map := c2.map.insert i rt }
  | .parenthesized _ inner => visitExpr idx ctx inner
  | .closure _ _ => pure ctx
  | .missingE i =>
    pure { ctx with map := ctx.map.insert i Ty.missing }

def visitArgs (idx : Index) (ctx : Ctx) : List Expr → Option Ctx
  | [] => pure ctx
  | e :: es => do
    let c ← visitExpr idx ctx e
    visitArgs idx c es

end

def visitStmt (idx : Index) (ctx : Ctx) : Stmt → Option Ctx
  | .exprStmt _ e => visitExpr idx ctx e

def visitStmts (idx : Index) (ctx : Ctx) : List Stmt → Option Ctx
  | [] => pure ctx
  | s :: rest => do
    let c ← visitStmt idx ctx s
    visitStmts idx c rest

/-- `TypeEngine::infer` (engine.rs 34-45): fresh map and scope stack, full
walk, return the map.  `none` models a panic during the walk. -/
def infer (idx : Index) (ast : List Stmt) : Option TypeMap :=
  (visitStmts idx ⟨[], ScopeStack.new⟩ ast).map Ctx.map

/-! ## Spans and tokens (shared by both parser generations) -/

/-- A half-open byte range `[start, stop)`; the source field `end` is a Lean
keyword and is called `stop` here. -/
structure Span where
  start : Nat
  stop : Nat
deriving DecidableEq, Repr

def Span.new (start stop : Nat) : Span := ⟨start, stop⟩

/-- `Span::combine` (spec §3: the `pxp_span` crate is not among the
sources): `[min(a.start, b.start), max(a.end, b.end))`. -/
def Span.combine (a b : Span) : Span :=
  ⟨Nat.min a.start b.start, Nat.max a.stop b.stop⟩

/-- The token kinds the claims exercise (the full `TokenKind` enumerates
every keyword and punctuation mark of the language). -/
inductive TokKind where
  | identifier
  | qualifiedIdentifier
  | enumT
  | fromT
  | variableT
  | asT
  | doubleArrow
  | ampersand
  | leftParen
  | rightParen
  | question
  | colon
  | questionColon
  | semiColon
  | rightBrace
  | eofT
deriving DecidableEq, Repr

structure Token where
  kind : TokKind
  symbol : BS
  span : Span
deriving DecidableEq, Repr

def eofToken : Token := ⟨.eofT, [], ⟨0, 0⟩⟩

inductive Severity where
  | error
  | warning
  | hint
deriving DecidableEq, Repr

/-! ## Parser state (`crates/parser/src/state.rs`) -/

namespace PS

/-- `UseKind` over the three import kinds. -/
inductive UseKind where
  | normal
  | functionK
  | constK
deriving DecidableEq, Repr

/-- `NamespaceType` (state.rs 12-16). -/
inductive NamespaceType where
  | braced
  | unbraced
deriving DecidableEq, Repr

/-- `Scope` (state.rs 18-22): a namespace scope on the state's stack. -/
inductive NsScope where
  | namespaceScope (name : BS)
  | bracedNamespace (name : Option BS)
deriving DecidableEq, Repr

/-- An attribute group; its members are immaterial to the claims, so only
the id and span are kept. -/
structure AttributeGroup where
  id : Nat
  span : Span
deriving DecidableEq, Repr

/-- A collected comment (opaque payload). -/
structure Comment where
  id : Nat
  span : Span
deriving DecidableEq, Repr

/-- Parser diagnostics, restricted to the kinds the modelled code emits. -/
inductive DiagKind where
  | expectedToken (expected : TokKind) (found : TokKind)
  | unexpectedToken (found : TokKind)
deriving DecidableEq, Repr

structure Diagnostic where
  kind : DiagKind
  severity : Severity
  span : Span
deriving DecidableEq, Repr

/-- `State` (state.rs 24-42).  The lexer is not among the sources; its
cursor is modelled from spec §4.1 as a token list with a position, the
stream returning EOF indefinitely once exhausted.  The deque `stack` keeps
its front at the list head (`enter` pushes at the back). -/
structure State where
  id : Nat
  stack : List NsScope
  imports : UseKind → List (BS × BS)
  namespaceType : Option NamespaceType
  attributes : List AttributeGroup
  comments : List Comment
  docblock : Bool
  diagnostics : List Diagnostic
  tokens : List Token
  pos : Nat

/-- `id()` (state.rs 290-294): increment, then return the new value. -/
def State.nextId (s : State) : Nat × State :=
  (s.id + 1, { s with id := s.id + 1 })

def State.current (s : State) : Token :=
  s.tokens.getD s.pos eofToken

def State.next (s : State) : State :=
  { s with pos := s.pos + 1 }

def State.addDiagnostic (s : State) (k : DiagKind) (sev : Severity)
    (sp : Span) : State :=
  { s with diagnostics := s.diagnostics ++ [⟨k, sev, sp⟩] }

/-- `namespace()` (state.rs 319-321): the front of the deque. -/
def State.namespaceFront (s : State) : Option NsScope :=
  s.stack.head?

/-- `join_with_namespace` (state.rs 428-436). -/
def State.join_with_namespace (s : State) (name : BS) : BS :=
  match s.namespaceFront with
  | some (.namespaceScope ns) => ns ++ '\\' :: name
  | some (.bracedNamespace (some ns)) => ns ++ '\\' :: name
  | _ => name

/-- Import-map lookup (`HashMap::get`). -/
def lookupBS (m : List (BS × BS)) (k : BS) : Option BS :=
  (m.find? (fun p => p.1 == k)).map (·.2)

/-- A `Name` as produced by resolution (the AST crate's
`Name::resolved` / `Name::unresolved`); the unresolved hint is the token
kind it was derived from. -/
inductive PName where
  | resolved (id : Nat) (resolved : BS) (original : BS) (span : Span)
  | unresolved (id : Nat) (symbol : BS) (hint : TokKind) (span : Span)
deriving DecidableEq, Repr

/-- `maybe_resolve_identifier` (state.rs 323-388).  `none` models the
`unreachable!()` arms (token kinds that cannot reach this function). -/
def maybe_resolve_identifier (s : State) (token : Token) (kind : UseKind) :
    Option (PName × State) :=
  let symbol := token.symbol
  let part : Option BS :=
    match token.kind with
    | .identifier | .enumT | .fromT => some symbol
    | .qualifiedIdentifier => some (symbol.takeWhile (fun c => c ≠ '\\'))
    | _ => none
  match part with
  | none => none
  | some part =>
    let (id, s) := s.nextId
    let map := s.imports kind
    match lookupBS map part with
    | some imported =>
      match token.kind with
      | .identifier | .fromT | .enumT =>
        some (.resolved id imported symbol token.span, s)
      | .qualifiedIdentifier =>
        -- splitn(2, b'\\'): everything after the first backslash,
        -- coagulated onto the un-aliased import.
        let rest := (symbol.dropWhile (fun c => c ≠ '\\')).drop 1
        some (.resolved id (imported ++ '\\' :: rest) symbol token.span, s)
      | _ => none
    | none =>
      if kind = UseKind.normal ∨ token.kind = TokKind.qualifiedIdentifier then
        some (.resolved id (s.join_with_namespace symbol) symbol token.span, s)
      else if (kind = UseKind.functionK ∨ kind = UseKind.constK)
          ∧ token.kind = TokKind.identifier ∧ s.stack.isEmpty then
        some (.resolved id symbol symbol token.span, s)
      else
        some (.unresolved id symbol token.kind token.span, s)

/-- `get_attributes` (state.rs 300-306): swap the buffer out, leaving it
empty. -/
def get_attributes (s : State) : List AttributeGroup × State :=
  (s.attributes, { s with attributes := [] })

/-- `attribute` (state.rs 296-298): push a group onto the buffer. -/
def pushAttribute (s : State) (attr : AttributeGroup) : State :=
  { s with attributes := s.attributes ++ [attr] }

/-! ### The foreach iterator (`crates/parser/src/internal/loops.rs` 15-71) -/

/-- An expression node of this parser generation; the claims treat parsed
expressions as opaque values carrying an id and a span. -/
structure PExpr where
  id : Nat
  span : Span
deriving DecidableEq, Repr

/-- Modelled from the spec: `utils::skip(expected)` is not among the
sources; spec §4.3 — on a match consume the token and return its span, on a
miss emit `ExpectedToken`, synthesize a zero-width span, and continue
without consuming. -/
def skipTok (s : State) (k : TokKind) : Span × State :=
  if (s.current).kind = k then
    (s.current.span, s.next)
  else
    (Span.new s.current.span.start s.current.span.start,
      s.addDiagnostic (.expectedToken k s.current.kind) .error s.current.span)

/-- `ForeachStatementIterator` (loops.rs 51-70). -/
inductive ForeachIterator where
  | keyAndValue (id : Nat) (span : Span) (expression : PExpr) (asSpan : Span)
      (key : PExpr) (doubleArrow : Span) (ampersand : Option Span)
      (value : PExpr)
  | valueOnly (id : Nat) (span : Span) (expression : PExpr) (asSpan : Span)
      (ampersand : Option Span) (value : PExpr)
deriving DecidableEq, Repr

/-- The iterator closure of `parse_foreach_statement` (loops.rs 20-71),
parameterized over the expression parser `createE` (`expressions::create`,
whose source for this parser generation is not in the snapshot).  The
`std::mem::swap(&mut value, &mut key)` of line 49 exchanges the two parsed
expressions before the `KeyAndValue` node is built. -/
def parse_foreach_iterator (createE : State → PExpr × State) (s : State) :
    ForeachIterator × State :=
  let (expression, s) := createE s
  let (asSpan, s) := skipTok s .asT
  let cur := s.current
  let (ampersand, s) :=
    if cur.kind = TokKind.ampersand then (some cur.span, s.next)
    else (none, s)
  let (value, s) := createE s
  let cur := s.current
  if cur.kind = TokKind.doubleArrow then
    let s := s.next
    let arrow := cur.span
    let cur2 := s.current
    let (ampersand2, s) :=
      if cur2.kind = TokKind.ampersand then (some cur2.span, s.next)
      else (none, s)
    let (key, s) := createE s
    -- std::mem::swap(&mut value, &mut key)
    let value2 := key
    let key2 := value
    let (nid, s) := s.nextId
    (.keyAndValue nid (Span.combine expression.span value2.span) expression
        asSpan key2 arrow ampersand2 value2, s)
  else
    let (nid, s) := s.nextId
    (.valueOnly nid (Span.combine expression.span value.span) expression
        asSpan ampersand value, s)

end PS

/-! ## Pratt expression engine fragment (`pxp-parser/src/expressions.rs`)

The fragment covers `for_precedence`'s infix loop for the ternary
operators, `left` for variables, and `unexpected_token`, over the token
kinds the claims exercise.  None of those kinds is postfix
(`is_postfix` covers `++ -- ( [ -> ?-> :: ??` only), so the postfix branch
of the loop is omitted. -/

namespace PP

/-- Parser diagnostics of this crate (`ParserDiagnostic`), restricted to
the kinds the fragment emits. -/
inductive DiagKind where
  | unexpectedToken (token : Token)
  | expectedToken (expected : TokKind) (found : Token)
  | unexpectedEndOfFile
deriving DecidableEq, Repr

structure Diagnostic where
  kind : DiagKind
  severity : Severity
  span : Span
deriving DecidableEq, Repr

/-- The parser state of this crate: token stream plus diagnostics. -/
structure State where
  tokens : List Token
  pos : Nat
  diagnostics : List Diagnostic
deriving DecidableEq, Repr

def State.current (s : State) : Token :=
  s.tokens.getD s.pos eofToken

/-- `stream.previous()`: the token before the cursor, falling back to the
current token at the start. -/
def State.previous (s : State) : Token :=
  match s.pos with
  | 0 => s.current
  | p + 1 => s.tokens.getD p eofToken

def State.next (s : State) : State :=
  { s with pos := s.pos + 1 }

def State.is_eof (s : State) : Bool :=
  s.current.kind = TokKind.eofT

def State.diagnostic (s : State) (k : DiagKind) (sev : Severity) (sp : Span) :
    State :=
  { s with diagnostics := s.diagnostics ++ [⟨k, sev, sp⟩] }

/-- Modelled from the spec: `precedences.rs` is not among the sources;
spec §4.4 and §9 describe a table from token kind to binding power.  Only
the levels the fragment needs are present; the ternary's associativity is
not consulted by any claim. -/
inductive Prec where
  | lowest
  | ternary
deriving DecidableEq, Repr

def Prec.toNat : Prec → Nat
  | .lowest => 0
  | .ternary => 1

def Prec.ltP (a b : Prec) : Bool := a.toNat < b.toNat

inductive Assoc where
  | leftA
  | rightA
  | nonA
deriving DecidableEq, Repr

def Prec.associativity : Prec → Option Assoc
  | _ => none

/-- `is_infix` (expressions.rs 1946-1994), restricted to the fragment's
token kinds: of these only `?` and `?:` are infix. -/
def is_infixT : TokKind → Bool
  | .question => Bool.true
  | .questionColon => Bool.true
  | _ => Bool.false

/-- `Precedence::infix` for the fragment's infix kinds. -/
def infixPrec : TokKind → Prec
  | _ => .ternary

mutual

/-- The expression nodes the fragment produces.  `Expression` carries its
kind and span (comments are immaterial here); `Ternary` keeps every field
of `TernaryExpression`, `ShortTernary` those of `ShortTernaryExpression`. -/
inductive Expr where
  | mk (kind : ExprKind) (span : Span)

inductive ExprKind where
  | variableE (symbol : BS)
  | ternary (span : Span) (condition : Expr) (question : Span) (thenE : Expr)
      (colon : Span) (elseE : Expr)
  | shortTernary (span : Span) (condition : Expr) (questionColon : Span)
      (elseE : Expr)
  | noop
  | missingK

end

def Expr.span : Expr → Span
  | .mk _ sp => sp

def Expr.kind : Expr → ExprKind
  | .mk k _ => k

/-- `Expression::missing(span)`. -/
def Expr.missingAt (sp : Span) : Expr := .mk .missingK sp

/-- `Expression::noop(span)`. -/
def Expr.noopAt (sp : Span) : Expr := .mk .noop sp

/-- `unexpected_token` (expressions.rs 1573-1588): emit the diagnostic,
advance unless the offending token is `}`, and return a synthesized
`Missing` node at the token's span. -/
def unexpected_token (s : State) : Expr × State :=
  let cur := s.current
  let s := s.diagnostic (.unexpectedToken cur) .error cur.span
  let s := if cur.kind ≠ TokKind.rightBrace then s.next else s
  (Expr.missingAt cur.span, s)

/-- `left` (expressions.rs 736-1571), restricted to the fragment: EOF check,
the variable arm (expressions.rs 1559-1567, the simple-variable case of
`variables::dynamic_variable`), and the `unexpected_token` fallback. -/
def leftFn (s : State) : Expr × State :=
  if s.is_eof then
    let sp := s.current.span
    (Expr.missingAt sp, s.diagnostic .unexpectedEndOfFile .error sp)
  else
    let cur := s.current
    match cur.kind with
    | .variableT => (Expr.mk (.variableE cur.symbol) cur.span, s.next)
    | _ => unexpected_token s

/-- Modelled from the spec: `utils::skip_colon` is not among the sources;
spec §4.3's `skip` contract, specialized to `:`. -/
def skip_colon (s : State) : Span × State :=
  if s.current.kind = TokKind.colon then
    (s.current.span, s.next)
  else
    (Span.new s.current.span.start s.current.span.start,
      s.diagnostic (.expectedToken .colon s.current) .error s.current.span)

mutual

/-- `for_precedence` (expressions.rs 67-707): parse a left operand, then
fold infix operators while their binding power admits them.  The fuel is an
artifact of the embedding (the Rust loop terminates by consuming tokens);
every theorem below supplies sufficient fuel. -/
def for_precedence (fuel : Nat) (s : State) (prec : Prec) : Expr × State :=
  match fuel with
  | 0 => (Expr.missingAt s.current.span, s)
  | fuel + 1 =>
    let (l, s) := leftFn s
    infixLoop fuel s l prec
termination_by structural fuel

/-- The infix half of `for_precedence`'s loop (expressions.rs 70-705),
covering the `Question` and `QuestionColon` arms. -/
def infixLoop (fuel : Nat) (s : State) (left : Expr) (prec : Prec) :
    Expr × State :=
  match fuel with
  | 0 => (left, s)
  | fuel + 1 =>
    let cur := s.current
    if cur.kind = TokKind.semiColon ∨ cur.kind = TokKind.eofT then (left, s)
    else if is_infixT cur.kind then
      let span := cur.span
      let rpred := infixPrec cur.kind
      if rpred.ltP prec then (left, s)
      else if rpred = prec ∧ rpred.associativity = some .leftA then (left, s)
      else
        let s :=
          if rpred = prec ∧ rpred.associativity = some .nonA then
            s.diagnostic (.unexpectedToken cur) .error cur.span
          else s
        let s := s.next
        let op := s.current
        let startSpan := op.span
        let (kind, s) :=
          match cur.kind with
          | .question =>
            if op.kind = TokKind.colon then
              -- `?` followed by a separate `:`: short-ternary behaviour
              -- with a synthesized noop `then` at the span after the `?`.
              let s := s.next
              let (elseE, s) := for_precedence fuel s .lowest  -- create
              (ExprKind.ternary (Span.combine left.span elseE.span) left span
                  (Expr.noopAt startSpan) op.span elseE, s)
            else
              let (thenE, s) := for_precedence fuel s .lowest  -- create
              let (colonSpan, s) := skip_colon s
              let (elseE, s) := for_precedence fuel s .lowest  -- create
              (ExprKind.ternary (Span.combine left.span elseE.span) left span
                  thenE colonSpan elseE, s)
          | .questionColon =>
            let (elseE, s) := for_precedence fuel s .lowest  -- create
            (ExprKind.shortTernary (Span.combine left.span elseE.span) left
                span elseE, s)
          | _ =>
            -- not an infix kind of the fragment; unreachable under
            -- `is_infixT`.
            (ExprKind.missingK, s)
        let endSpan := s.previous.span
        let left := Expr.mk kind (Span.new startSpan.start endSpan.stop)
        infixLoop fuel s left prec
    else (left, s)
termination_by structural fuel

end

/-- `create` (expressions.rs 55-57). -/
def create (fuel : Nat) (s : State) : Expr × State :=
  for_precedence fuel s .lowest

end PP

/-! ## Concrete inputs used by the claim theorems -/

def emptyIndex : Index := ⟨[], []⟩

/-- An index that knows a class `Foo` and nothing else. -/
def fooIndex : Index := ⟨[], ["Foo".toList]⟩

/-- `<?php $a; (1) = 2;` — an unbound variable statement followed by an
assignment whose left-hand side is not a simple variable. -/
def c2prog : List Stmt :=
  [.exprStmt 0 (.mk 1 (.varE (.simple ⟨2, "a".toList⟩))),
   .exprStmt 10 (.mk 11 (.assignmentOperation 12
     (.mk 20 (.parenthesized 21 (.mk 22 (.literal ⟨23, .integer, "1".toList⟩))))
     (.mk 30 (.literal ⟨31, .integer, "2".toList⟩))))]

def c2map : TypeMap := (infer emptyIndex c2prog).getD []

/-- `<?php new self()` — a `new` whose target is a `Name` that is not
resolved (a `Special` name). -/
def c3progSpecial : List Stmt :=
  [.exprStmt 0 (.mk 1 (.newE 2 (.mk 3 (.name ⟨4, .special .selfK⟩)) []))]

def c3mapSpecial : TypeMap := (infer emptyIndex c3progSpecial).getD []

/-- `<?php $c = "Foo"; new $c();` — spec §8 scenario 8. -/
def c3progLiteral : List Stmt :=
  [.exprStmt 0 (.mk 1 (.assignmentOperation 2
     (.mk 3 (.varE (.simple ⟨4, "c".toList⟩)))
     (.mk 5 (.literal ⟨6, .stringL, "\"Foo\"".toList⟩)))),
   .exprStmt 10 (.mk 11 (.newE 12
     (.mk 13 (.varE (.simple ⟨14, "c".toList⟩))) []))]

def c3mapLiteral : TypeMap := (infer fooIndex c3progLiteral).getD []

/-- `<?php "Cls::m"();` — a function call whose target is a string literal
containing `::` (a method-reference callable string). -/
def c1prog : List Stmt :=
  [.exprStmt 0 (.mk 1 (.functionCall 2
    (.mk 3 (.literal ⟨4, .stringL, "\"Cls::m\"".toList⟩)) []))]

/-! # Claims -/

/-! ## C7 — `simplify_union` algebra -/

theorem mem_dedupKeepFirst (a : Ty) : ∀ (l seen : List Ty),
    (a ∈ dedupKeepFirst seen l ↔ a ∈ l ∧ a ∉ seen)
  | [], seen => by simp [dedupKeepFirst]
  | t :: rest, seen => by
    by_cases h : t ∈ seen
    · simp only [dedupKeepFirst, if_pos h, List.mem_cons,
        mem_dedupKeepFirst a rest seen]
      by_cases hat : a = t
      · subst hat; simp [h]
      · simp [hat]
    · simp only [dedupKeepFirst, if_neg h, List.mem_cons,
        mem_dedupKeepFirst a rest (t :: seen)]
      by_cases hat : a = t
      · subst hat; simp [h]
      · simp [hat]

theorem nodup_dedupKeepFirst : ∀ (l seen : List Ty),
    (dedupKeepFirst seen l).Nodup
  | [], _ => by simp [dedupKeepFirst]
  | t :: rest, seen => by
    by_cases h : t ∈ seen
    · simpa [dedupKeepFirst, if_pos h] using nodup_dedupKeepFirst rest seen
    · simp only [dedupKeepFirst, if_neg h, List.nodup_cons]
      refine ⟨fun hc => ?_, nodup_dedupKeepFirst rest (t :: seen)⟩
      exact ((mem_dedupKeepFirst t rest (t :: seen)).mp hc).2 (List.mem_cons_self t seen)

theorem simplify_union_not_singleton : ∀ (U : List Ty), (∀ t, U ≠ [t]) →
    simplify_union U =
      (match dedupKeepFirst [] U with
       | [t] => t
       | ts => Ty.union ts)
  | [], _ => rfl
  | [a], h => absurd rfl (h a)
  | _ :: _ :: _, _ => rfl

theorem simplify_union_perm (U U' : List Ty) (hp : U.Perm U') :
    simplify_union U = simplify_union U'
    ∨ ∃ ts ts', simplify_union U = Ty.union ts
        ∧ simplify_union U' = Ty.union ts' ∧ ts.Perm ts' := by
  rcases U with - | ⟨a, - | ⟨b, rest⟩⟩
  · rw [(List.Perm.eq_nil hp.symm : U' = [])]
    exact Or.inl rfl
  · rw [(List.perm_singleton.mp hp.symm : U' = [a])]
    exact Or.inl rfl
  · have hne : ∀ t, (a :: b :: rest) ≠ [t] := by intro t h; simp at h
    have hne' : ∀ t, U' ≠ [t] := by
      intro t h
      have hlen := hp.length_eq
      rw [h] at hlen
      simp at hlen
    rw [simplify_union_not_singleton _ hne, simplify_union_not_singleton _ hne']
    have hperm : (dedupKeepFirst [] (a :: b :: rest)).Perm (dedupKeepFirst [] U') := by
      refine (List.perm_ext_iff_of_nodup (nodup_dedupKeepFirst _ _)
        (nodup_dedupKeepFirst _ _)).mpr ?_
      intro x
      rw [mem_dedupKeepFirst, mem_dedupKeepFirst]
      simp [hp.mem_iff]
    have hlen := hperm.length_eq
    rcases hd : dedupKeepFirst [] (a :: b :: rest) with - | ⟨x, - | ⟨y, ys⟩⟩ <;>
      rw [hd] at hperm hlen <;>
      rcases hd' : dedupKeepFirst [] U' with - | ⟨x', - | ⟨y', ys'⟩⟩ <;>
      rw [hd'] at hperm hlen <;>
      simp at hlen
    · exact Or.inl rfl
    · have : x = x' := by
        have := hperm.mem_iff (a := x)
        simp at this
        exact this
      exact Or.inl (by rw [this])
    · exact Or.inr ⟨x :: y :: ys, x' :: y' :: ys', rfl, rfl, hperm⟩

/-- C7: `simplify_union` collapses singleton lists to their element, is
idempotent (re-simplifying the one-element list holding a previous result
is the identity), and is order-insensitive: permuted inputs yield the same
type, up to the order of the elements inside a resulting `Union`. -/
theorem c7_simplify_union_algebra :
    (∀ t : Ty, simplify_union [t] = t)
    ∧ (∀ U : List Ty, simplify_union [simplify_union U] = simplify_union U)
    ∧ (∀ U U' : List Ty, U.Perm U' →
        simplify_union U = simplify_union U'
        ∨ ∃ ts ts', simplify_union U = Ty.union ts
            ∧ simplify_union U' = Ty.union ts' ∧ ts.Perm ts') :=
  ⟨fun _ => rfl, fun _ => rfl, simplify_union_perm⟩

/-- Witness for C7 at concrete inputs: `[Integer, Boolean]` permuted to
`[Boolean, Integer]`. -/
theorem c7_simplify_union_algebra_witness :
    ([Ty.integer, Ty.boolean].Perm [Ty.boolean, Ty.integer])
    ∧ (simplify_union [Ty.integer, Ty.boolean]
          = simplify_union [Ty.boolean, Ty.integer]
        ∨ ∃ ts ts', simplify_union [Ty.integer, Ty.boolean] = Ty.union ts
            ∧ simplify_union [Ty.boolean, Ty.integer] = Ty.union ts'
            ∧ ts.Perm ts') :=
  ⟨by decide, c7_simplify_union_algebra.2.2 _ _ (by decide)⟩

/-! ## C9 — draining the attribute buffer -/

theorem foldl_pushAttribute_attributes (gs : List PS.AttributeGroup) :
    ∀ (s : PS.State), (gs.foldl PS.pushAttribute s).attributes
      = s.attributes ++ gs := by
  induction gs with
  | nil => intro s; simp
  | cons g rest ih =>
    intro s
    simp [List.foldl_cons, ih, PS.pushAttribute]

/-- C9: `get_attributes` is an atomic swap-out: it returns exactly the
groups buffered so far in push order, empties the buffer, changes no other
field of the state, and a second drain with no intervening push yields
nothing. -/
theorem c9_get_attributes_swap (s : PS.State) (gs : List PS.AttributeGroup) :
    (PS.get_attributes (gs.foldl PS.pushAttribute s)).1 = s.attributes ++ gs
    ∧ (PS.get_attributes s).1 = s.attributes
    ∧ (PS.get_attributes s).2.attributes = []
    ∧ (PS.get_attributes s).2.id = s.id
    ∧ (PS.get_attributes s).2.stack = s.stack
    ∧ (PS.get_attributes s).2.imports = s.imports
    ∧ (PS.get_attributes s).2.namespaceType = s.namespaceType
    ∧ (PS.get_attributes s).2.comments = s.comments
    ∧ (PS.get_attributes s).2.docblock = s.docblock
    ∧ (PS.get_attributes s).2.diagnostics = s.diagnostics
    ∧ (PS.get_attributes s).2.tokens = s.tokens
    ∧ (PS.get_attributes s).2.pos = s.pos
    ∧ (PS.get_attributes (PS.get_attributes s).2).1 = [] :=
  ⟨foldl_pushAttribute_attributes gs s, rfl, rfl, rfl, rfl, rfl, rfl, rfl,
    rfl, rfl, rfl, rfl, rfl⟩

/-! ## C10 — enclosed scopes snapshot their parent -/

/-- C10: `Scope::enclose` snapshots the parent: a fresh enclosed scope sees
exactly the parent's bindings as they were at enclosure time, a binding
added to the parent afterwards is not visible from the already-enclosed
scope, setting a variable in the enclosed scope leaves the captured parent
untouched, and on the stack `start_enclosed` followed by a write to the
current scope leaves every lower scope unchanged. -/
theorem c10_enclose_snapshot :
    (∀ (p : Scope) (v : BS),
      (Scope.enclose p).get_variable v = p.get_variable v)
    ∧ (∀ (p : Scope) (x : BS) (t : Ty), p.get_variable x = none →
        (Scope.enclose p).get_variable x = none
        ∧ (p.set_variable x t).get_variable x = some t)
    ∧ (∀ (p : Scope) (x : BS) (t : Ty),
        ((Scope.enclose p).set_variable x t).outer = some p)
    ∧ (∀ (st : ScopeStack) (x : BS) (t : Ty),
        ((st.start_enclosed.setCurrentVar x t).scopes.tail = st.scopes)
        ∧ (∀ v, st.start_enclosed.current.get_variable v
              = st.current.get_variable v)) := by
  have henc : ∀ (p : Scope) (v : BS),
      (Scope.enclose p).get_variable v = p.get_variable v := by
    intro p v
    simp [Scope.enclose, Scope.get_variable]
  refine ⟨henc, ?_, ?_, ?_⟩
  · intro p x t hnone
    refine ⟨by rw [henc, hnone], ?_⟩
    cases p with
    | mk vars outer =>
      cases outer <;> simp [Scope.set_variable, Scope.get_variable, List.find?_cons]
  · intro p x t
    simp [Scope.enclose, Scope.set_variable, Scope.outer]
  · intro st x t
    refine ⟨?_, fun v => henc _ v⟩
    simp [ScopeStack.start_enclosed, ScopeStack.setCurrentVar]

/-- Witness for C10 at a concrete input: the root scope has no binding for
`a`, the enclosed scope still sees none after the parent would gain one,
and the parent write is itself visible on the parent. -/
theorem c10_enclose_snapshot_witness :
    Scope.new.get_variable ['a'] = none
    ∧ (Scope.enclose Scope.new).get_variable ['a'] = none
    ∧ (Scope.new.set_variable ['a'] Ty.integer).get_variable ['a']
        = some Ty.integer :=
  ⟨by decide, (c10_enclose_snapshot.2.1 Scope.new ['a'] Ty.integer (by decide)).1,
    (c10_enclose_snapshot.2.1 Scope.new ['a'] Ty.integer (by decide)).2⟩

/-! ## C1 — the `todo!()` panics on unknown call targets -/

/-- C1: contrary to the claim that the engine never throws and unknown
call targets collapse to `Mixed`, the code panics (modelled as `none`):
`is_callable_string` hits `todo!()` on a string literal containing `::`,
`get_function_call_target_return_type_from_name` hits `todo!()` on any
name that is not `Resolved`, and a full `infer` over a program calling
`"Cls::m"()` aborts. -/
theorem c1_unknown_call_targets_panic :
    is_callable_string emptyIndex ("\"Cls::m\"".toList) = none
    ∧ determine_call_return_type emptyIndex
        (.mk 1 (.literal ⟨2, .stringL, "\"Cls::m\"".toList⟩)) = none
    ∧ return_type_from_name emptyIndex ⟨3, .unresolved "f".toList⟩ = none
    ∧ determine_call_return_type emptyIndex
        (.mk 4 (.name ⟨5, .special .selfK⟩)) = none
    ∧ infer emptyIndex c1prog = none :=
  ⟨rfl, rfl, rfl, rfl, rfl⟩

/-! ## C2 — coverage of the type map -/

/-- C2 counterexample: after a full pass over `c2prog` the engine did not
abort, yet the map holds no entry for the unbound simple variable (id 2)
nor for the subexpressions of the non-simple-variable assignment left-hand
side (ids 20 and 23), refuting "TypeMap contains an entry for e.id for
every expression node". -/
theorem c2_missing_entries_counterexample :
    (infer emptyIndex c2prog).isSome = true
    ∧ TypeMap.containsKey c2map 2 = false
    ∧ TypeMap.containsKey c2map 20 = false
    ∧ TypeMap.containsKey c2map 23 = false :=
  ⟨rfl, rfl, rfl, rfl⟩

/-- C2 as amended: `resolve` is total and defaults to `Mixed`, so queries
are always defined, but the map itself omits unbound simple variables and
everything inside a non-simple assignment left-hand side (and the
right-hand side's wrapper node); nodes the walk visits and stores — the
statement-level wrappers, the assignment, the walked literal — do get
entries. -/
theorem c2_resolve_defaults_to_mixed :
    TypeMap.resolve c2map 2 = Ty.mixed
    ∧ TypeMap.resolve c2map 20 = Ty.mixed
    ∧ TypeMap.resolve c2map 23 = Ty.mixed
    ∧ TypeMap.containsKey c2map 1 = true
    ∧ TypeMap.resolve c2map 1 = Ty.mixed
    ∧ TypeMap.containsKey c2map 11 = true
    ∧ TypeMap.containsKey c2map 12 = true
    ∧ TypeMap.containsKey c2map 31 = true
    ∧ TypeMap.resolve c2map 11 = Ty.integer
    ∧ TypeMap.containsKey c2map 30 = false :=
  ⟨rfl, rfl, rfl, rfl, rfl, rfl, rfl, rfl, rfl, rfl⟩

/-! ## C3 — typing of `new` expressions -/

/-- C3 counterexample: a `new` whose target is a `Name` that is not
resolved is typed `Mixed`, not `Object` as the claim states. -/
theorem c3_nonresolved_name_counterexample :
    TypeMap.resolve c3mapSpecial 2 = Ty.mixed
    ∧ Ty.mixed ≠ Ty.object :=
  ⟨rfl, by decide⟩

/-- A `new` target that is no `Name` node is typed from its entry in the
map (engine.rs 365-373). -/
theorem newTargetType_not_name (m : TypeMap) (idx : Index) (i : Nat)
    (k : ExprKind) (h : ∀ n, k ≠ ExprKind.name n) :
    newTargetType m idx (.mk i k) =
      (match m.resolve i with
       | Ty.literalString v =>
         if is_newable_string idx v then Ty.named ⟨v, v⟩ else Ty.object
       | _ => Ty.object) := by
  cases k
  case name n => exact absurd rfl (h n)
  all_goals rfl

/-- C3 as amended: a resolved name target gives `Named(name)`; a `Name`
target that is not resolved (Special or Unresolved) gives `Mixed`; a
non-name target whose inferred type is a `LiteralString` naming an indexed
class gives `Named(that class)`; every remaining non-name target gives
`Object`.  The final conjunct runs spec §8 scenario 8 end to end. -/
theorem c3_new_expression_typing :
    (∀ (m : TypeMap) (idx : Index) (wid nid : Nat) (r : ResolvedName),
      newTargetType m idx (.mk wid (.name ⟨nid, .resolved r⟩)) = Ty.named r)
    ∧ (∀ (m : TypeMap) (idx : Index) (wid nid : Nat) (k : SpecialNameKind),
      newTargetType m idx (.mk wid (.name ⟨nid, .special k⟩)) = Ty.mixed)
    ∧ (∀ (m : TypeMap) (idx : Index) (wid nid : Nat) (orig : BS),
      newTargetType m idx (.mk wid (.name ⟨nid, .unresolved orig⟩)) = Ty.mixed)
    ∧ (∀ (m : TypeMap) (idx : Index) (target : Expr) (v : BS),
      (∀ n, target.kind ≠ .name n) →
      m.resolve target.id = Ty.literalString v →
      is_newable_string idx v = true →
      newTargetType m idx target = Ty.named ⟨v, v⟩)
    ∧ (∀ (m : TypeMap) (idx : Index) (target : Expr),
      (∀ n, target.kind ≠ .name n) →
      (∀ v, m.resolve target.id = Ty.literalString v →
        is_newable_string idx v = false) →
      newTargetType m idx target = Ty.object)
    ∧ TypeMap.resolve c3mapLiteral 12
        = Ty.named ⟨"Foo".toList, "Foo".toList⟩ := by
  refine ⟨fun _ _ _ _ _ => rfl, fun _ _ _ _ _ => rfl, fun _ _ _ _ _ => rfl,
    ?_, ?_, rfl⟩
  · intro m idx target v hname hres hnew
    rcases target with ⟨i, k⟩
    rw [newTargetType_not_name m idx i k hname]
    simp only [Expr.id] at hres
    rw [hres]
    simp [hnew]
  · intro m idx target hname hlit
    rcases target with ⟨i, k⟩
    rw [newTargetType_not_name m idx i k hname]
    simp only [Expr.id] at hlit
    cases hres : TypeMap.resolve m i
    case literalString v => simp [hlit v hres]
    all_goals rfl

/-- Witness for C3 at concrete inputs, fixing the hypothesized cases: a
non-name target whose resolved type names the indexed class `Foo`, and one
whose resolved type is no `LiteralString` at all. -/
theorem c3_new_expression_typing_witness :
    newTargetType [(7, Ty.literalString "Foo".toList)] fooIndex
        (.mk 7 (.missingE 8)) = Ty.named ⟨"Foo".toList, "Foo".toList⟩
    ∧ newTargetType [] fooIndex (.mk 7 (.missingE 8)) = Ty.object :=
  ⟨c3_new_expression_typing.2.2.2.1 _ _ _ _
      (fun n h => ExprKind.noConfusion h) (by decide) (by decide),
    c3_new_expression_typing.2.2.2.2.1 _ _ _
      (fun n h => ExprKind.noConfusion h)
      (fun v h => by simp [TypeMap.resolve] at h)⟩

/-! ## C4 — plain function/const names resolve to global or not at all -/

/-- C4: a plain identifier looked up with kind `Function` or `Const` whose
key matches no import of that kind resolves to `Resolved(symbol, symbol)`
when the namespace stack is empty and to `Unresolved` otherwise — it is
never resolved by prepending the current namespace. -/
theorem c4_plain_function_const_resolution (s : PS.State) (sym : BS)
    (sp : Span) (k : PS.UseKind) (hk : k = .functionK ∨ k = .constK)
    (hnone : PS.lookupBS (s.imports k) sym = none) :
    PS.maybe_resolve_identifier s ⟨.identifier, sym, sp⟩ k =
      some (if s.stack.isEmpty
            then PS.PName.resolved (s.id + 1) sym sym sp
            else PS.PName.unresolved (s.id + 1) sym .identifier sp,
            { s with id := s.id + 1 }) := by
  rcases hk with rfl | rfl <;>
    · simp only [PS.maybe_resolve_identifier, PS.State.nextId, hnone]
      by_cases he : s.stack.isEmpty <;> simp [he]

/-- Witness for C4: a fresh state with no imports resolves `f` globally;
the same state inside namespace `N` leaves `f` unresolved. -/
theorem c4_plain_function_const_resolution_witness :
    PS.maybe_resolve_identifier
        ⟨0, [], fun _ => [], none, [], [], false, [], [], 0⟩
        ⟨.identifier, ['f'], ⟨0, 1⟩⟩ .functionK =
      some (PS.PName.resolved 1 ['f'] ['f'] ⟨0, 1⟩,
        ⟨1, [], fun _ => [], none, [], [], false, [], [], 0⟩)
    ∧ PS.maybe_resolve_identifier
        ⟨0, [.namespaceScope ['N']], fun _ => [], none, [], [], false, [], [], 0⟩
        ⟨.identifier, ['f'], ⟨0, 1⟩⟩ .constK =
      some (PS.PName.unresolved 1 ['f'] .identifier ⟨0, 1⟩,
        ⟨1, [.namespaceScope ['N']], fun _ => [], none, [], [], false, [], [], 0⟩) := by
  constructor
  · have h := c4_plain_function_const_resolution
      ⟨0, [], fun _ => [], none, [], [], false, [], [], 0⟩
      ['f'] ⟨0, 1⟩ .functionK (Or.inl rfl) rfl
    simpa using h
  · have h := c4_plain_function_const_resolution
      ⟨0, [.namespaceScope ['N']], fun _ => [], none, [], [], false, [], [], 0⟩
      ['f'] ⟨0, 1⟩ .constK (Or.inr rfl) rfl
    simpa using h

/-! ## C5 — `? :` versus `?:` -/

/-- C5: with `?` and `:` as separate tokens the parser yields a
`TernaryExpression` whose `then` is a synthesized noop spanning exactly the
token right after the `?` (the colon); with the single `?:` token it yields
a `ShortTernaryExpression`, a node with no `then` field at all. -/
theorem c5_ternary_vs_short_ternary (s1 s2 s3 s4 : Span) (n1 n2 : BS) :
    (PP.create 10 ⟨[⟨.variableT, n1, s1⟩, ⟨.question, [], s2⟩,
        ⟨.colon, [], s3⟩, ⟨.variableT, n2, s4⟩], 0, []⟩).1
      = PP.Expr.mk
          (.ternary (Span.combine s1 s4) (.mk (.variableE n1) s1) s2
            (PP.Expr.noopAt s3) s3 (.mk (.variableE n2) s4))
          (Span.new s3.start s4.stop)
    ∧ (PP.create 10 ⟨[⟨.variableT, n1, s1⟩, ⟨.questionColon, [], s2⟩,
        ⟨.variableT, n2, s4⟩], 0, []⟩).1
      = PP.Expr.mk
          (.shortTernary (Span.combine s1 s4) (.mk (.variableE n1) s1) s2
            (.mk (.variableE n2) s4))
          (Span.new s4.start s4.stop) :=
  ⟨rfl, rfl⟩

/-! ## C6 — foreach key/value placement -/

/-- C6: in the foreach iterator, when a `=>` follows the expression parsed
after `as`, the first expression parsed after `as` ends up in the `key`
field and the second in the `value` field (the `mem::swap`); with no `=>`
the single parsed expression is the `value` of a `Value` iterator. -/
theorem c6_foreach_key_value (createE : PS.State → PS.PExpr × PS.State)
    (s0 : PS.State) (e1 : PS.PExpr) (s1 : PS.State) (asSp : Span)
    (s2 : PS.State) (v1 : PS.PExpr) (s3 : PS.State)
    (h1 : createE s0 = (e1, s1))
    (h2 : PS.skipTok s1 .asT = (asSp, s2))
    (h3 : s2.current.kind ≠ TokKind.ampersand)
    (h4 : createE s2 = (v1, s3)) :
    ((s3.current.kind = TokKind.doubleArrow →
       s3.next.current.kind ≠ TokKind.ampersand →
       ∀ e2 s4, createE s3.next = (e2, s4) →
         PS.parse_foreach_iterator createE s0 =
           (.keyAndValue (s4.id + 1) (Span.combine e1.span e2.span) e1 asSp
              v1 s3.current.span none e2,
            { s4 with id := s4.id + 1 }))
     ∧ (s3.current.kind ≠ TokKind.doubleArrow →
         PS.parse_foreach_iterator createE s0 =
           (.valueOnly (s3.id + 1) (Span.combine e1.span v1.span) e1 asSp
              none v1,
            { s3 with id := s3.id + 1 }))) := by
  constructor
  · intro hda hna e2 s4 h5
    simp [PS.parse_foreach_iterator, h1, h2, h4, h5, h3, hda, hna,
      PS.State.nextId]
  · intro hnd
    simp [PS.parse_foreach_iterator, h1, h2, h4, h3, hnd, PS.State.nextId]

/-- Witness for C6: a five-token stream `x as $a => $b` with an expression
parser that consumes one token; the first expression parsed after `as`
(spanning bytes 5-7) becomes the key, the second (bytes 11-13) the value. -/
theorem c6_foreach_key_value_witness :
    PS.parse_foreach_iterator
        (fun s => (⟨s.pos, s.current.span⟩, s.next))
        ⟨0, [], fun _ => [], none, [], [], false, [],
          [⟨.identifier, ['x'], ⟨0, 1⟩⟩, ⟨.asT, [], ⟨2, 4⟩⟩,
           ⟨.variableT, ['a'], ⟨5, 7⟩⟩, ⟨.doubleArrow, [], ⟨8, 10⟩⟩,
           ⟨.variableT, ['b'], ⟨11, 13⟩⟩], 0⟩ =
      (.keyAndValue 1 ⟨0, 13⟩ ⟨0, ⟨0, 1⟩⟩ ⟨2, 4⟩ ⟨2, ⟨5, 7⟩⟩ ⟨8, 10⟩ none
          ⟨4, ⟨11, 13⟩⟩,
       ⟨1, [], fun _ => [], none, [], [], false, [],
          [⟨.identifier, ['x'], ⟨0, 1⟩⟩, ⟨.asT, [], ⟨2, 4⟩⟩,
           ⟨.variableT, ['a'], ⟨5, 7⟩⟩, ⟨.doubleArrow, [], ⟨8, 10⟩⟩,
           ⟨.variableT, ['b'], ⟨11, 13⟩⟩], 5⟩) := by
  have h := (c6_foreach_key_value
      (fun s => (⟨s.pos, s.current.span⟩, s.next))
      ⟨0, [], fun _ => [], none, [], [], false, [],
        [⟨.identifier, ['x'], ⟨0, 1⟩⟩, ⟨.asT, [], ⟨2, 4⟩⟩,
         ⟨.variableT, ['a'], ⟨5, 7⟩⟩, ⟨.doubleArrow, [], ⟨8, 10⟩⟩,
         ⟨.variableT, ['b'], ⟨11, 13⟩⟩], 0⟩
      _ _ _ _ _ _ rfl rfl (by decide) rfl).1 (by decide) (by decide)
      ⟨4, ⟨11, 13⟩⟩ _ rfl
  simpa using h

/-! ## C8 — recovery at a token with no prefix parse -/

/-- C8: `unexpected_token` appends an `UnexpectedToken` diagnostic, returns
a synthesized `Missing` node at the offending token's span, and advances
the cursor past the token — except when the token is `}`, which is left for
an enclosing structure to consume; the token list itself is untouched and
the function always returns, so the parse continues. -/
theorem c8_unexpected_token_recovery (s : PP.State) :
    (PP.unexpected_token s).1 = PP.Expr.missingAt (s.current).span
    ∧ (PP.unexpected_token s).2.diagnostics
        = s.diagnostics
            ++ [⟨.unexpectedToken s.current, .error, (s.current).span⟩]
    ∧ (PP.unexpected_token s).2.tokens = s.tokens
    ∧ (PP.unexpected_token s).2.pos
        = (if s.current.kind = TokKind.rightBrace then s.pos else s.pos + 1) := by
  by_cases h : s.current.kind = TokKind.rightBrace <;>
    simp [PP.unexpected_token, PP.State.diagnostic, PP.State.next, h]

end Pxp
